import Mathlib

/-!
# Verification of the ticket-tree GraphQL resolvers (`src/server.js`)

Shallow embedding of the mutation/query resolvers of the ticket service.
A ticket is a record `{id, title, isCompleted, parentId}`; the store is the
list of ticket rows.  The resolvers in `src/server.js` act on the store
through the Sequelize model `models.Ticket` (point lookup `findByPk`,
predicate scan `findAll`, row creation `create`, field update `update`,
row deletion `destroy`).  The model definition file (`./db`) is not part of
`src/`, so the model-level behaviours (title validation, the delete cascade
policy, the `isCompleted` default) are modelled from the spec, as marked on
the corresponding definitions; everything else is translated directly from
the resolver code.
-/

namespace TicketApp

/-- A ticket row: `id`, `title`, `isCompleted`, nullable `parentId`. -/
structure Ticket where
  id : Nat
  title : String
  isCompleted : Bool
  parentId : Option Nat
deriving DecidableEq, Repr

/-- The ticket store: the list of ticket rows. -/
abbrev Store := List Ticket

/-- `models.Ticket.findByPk id`: point lookup of the row with primary key `id`. -/
def findByPk (st : Store) (id : Nat) : Option Ticket :=
  st.find? (fun t => t.id == id)

/-- `row.update({...})` at the store level: rewrite the row with primary key
`id` through `f` (which changes fields but never the primary key). -/
def updateRecord (st : Store) (id : Nat) (f : Ticket → Ticket) : Store :=
  st.map (fun t => if t.id == id then f t else t)

/-- The `tickets` query resolver (`server.js` lines 52-58):
`findAll({where: {parentId: null}})`, the root-level tickets. -/
def tickets (st : Store) : List Ticket :=
  st.filter (fun t => t.parentId.isNone)

/-- The `ticket` query resolver (`server.js` lines 59-62): `findByPk id`. -/
def ticket (st : Store) (id : Nat) : Option Ticket :=
  findByPk st id

/-- Errors surfaced by the resolvers.  `notFound` is the thrown
`Error('Ticket not found')`, `parentNotFound` the thrown
`Error('Parent ticket not found')`, `childNotFound id` the rejection
`` `Children ticket ${id} does not exists` ``; `validationError` is the
model-level rejection of an empty title (modelled from the spec). -/
inductive TicketError where
  | notFound
  | parentNotFound
  | childNotFound (id : Nat)
  | validationError
deriving DecidableEq, Repr

/-- Modelled from the spec: the Sequelize `Ticket` model lives in `./db`,
which is not under `src/`; per the spec `title` is non-empty text and
`create`/`updateTitle` fail with `ValidationError` on an empty title. -/
def titleOk (title : String) : Bool :=
  title ≠ ""

/-- The `createTicket` resolver (`server.js` lines 70-73):
`models.Ticket.create({title, isCompleted})`.  `parentId` starts null.
The empty-title rejection and the `isCompleted` default of `false` are the
model-level behaviours modelled from the spec (see `titleOk`).
`newId` stands for the fresh primary key the store assigns to the row. -/
def createTicket (st : Store) (newId : Nat) (title : String)
    (isCompleted : Option Bool) : Except TicketError Ticket × Store :=
  if titleOk title then
    let t : Ticket := ⟨newId, title, isCompleted.getD false, none⟩
    (.ok t, st ++ [t])
  else
    (.error .validationError, st)

/-- The `updateTicket` resolver (`server.js` lines 74-82): `findByPk id`;
if absent, throw `Error('Ticket not found')`; else `ticket.update({title})`.
The empty-title rejection is the model-level validation modelled from the
spec (see `titleOk`). -/
def updateTicket (st : Store) (id : Nat) (title : String) :
    Except TicketError Ticket × Store :=
  match findByPk st id with
  | none => (.error .notFound, st)
  | some t =>
      if titleOk title then
        (.ok { t with title := title },
          updateRecord st id (fun u => { u with title := title }))
      else
        (.error .validationError, st)

/-- The `toggleTicket` resolver (`server.js` lines 83-91): `findByPk id`;
if absent, throw `Error('Ticket not found')`; else
`ticket.update({isCompleted})`. -/
def toggleTicket (st : Store) (id : Nat) (isCompleted : Bool) :
    Except TicketError Ticket × Store :=
  match findByPk st id with
  | none => (.error .notFound, st)
  | some t =>
      (.ok { t with isCompleted := isCompleted },
        updateRecord st id (fun u => { u with isCompleted := isCompleted }))

/-- Modelled from the spec: `ticket.destroy()` deletes the row; the cascade
policy of the association (configured in `./db`, not under `src/`) orphans
the children — every row whose `parentId` was `id` gets `parentId := null`. -/
def destroyRecord (st : Store) (id : Nat) : Store :=
  (st.filter (fun t => t.id ≠ id)).map
    (fun t => if t.parentId = some id then { t with parentId := none } else t)

/-- The `removeTicket` resolver (`server.js` lines 92-107): `findByPk id`;
if absent, return the value `false`; else `destroy()` and return `true`
(the `.catch` branch returning `false` is unreachable in the model, where
`destroy` always succeeds). -/
def removeTicket (st : Store) (id : Nat) : Bool × Store :=
  match findByPk st id with
  | none => (false, st)
  | some _ => (true, destroyRecord st id)

/-- The value a reparenting resolver hands back: `setParentOfTicket` and
`removeParentFromTicket` return the JS value `false` when the looked-up
ticket is absent (`server.js` lines 161-163 and 170-172) — they do not
throw — and otherwise return the updated ticket. -/
inductive SetParentResult where
  | notFoundFalse
  | ok (t : Ticket)
deriving DecidableEq, Repr

/-- The `setParentOfTicket` resolver (`server.js` lines 158-166):
`findByPk childId`; if absent, return the value `false`; else
`ticket.update({parentId})` — with no self-parent check and no cycle
check of any kind. -/
def setParentOfTicket (st : Store) (parentId : Nat) (childId : Nat) :
    SetParentResult × Store :=
  match findByPk st childId with
  | none => (.notFoundFalse, st)
  | some t =>
      (.ok { t with parentId := some parentId },
        updateRecord st childId (fun u => { u with parentId := some parentId }))

/-- The `removeParentFromTicket` resolver (`server.js` lines 167-175):
`findByPk id`; if absent, return the value `false`; else
`ticket.update({parentId: null})`. -/
def removeParentFromTicket (st : Store) (id : Nat) :
    SetParentResult × Store :=
  match findByPk st id with
  | none => (.notFoundFalse, st)
  | some t =>
      (.ok { t with parentId := none },
        updateRecord st id (fun u => { u with parentId := none }))

/-- The store mutation shared by both bulk resolvers (`server.js` lines
114-127 and 136-152): for each entry of `childrenIds`, in list order,
`findByPk` it and — when the row exists — `update({parentId})` on it.
Each per-child chain runs to completion regardless of how the other
children fared, so every existing child is reassigned. -/
def applyChildren (st : Store) (parentId : Nat) (ids : List Nat) : Store :=
  ids.foldl
    (fun s cid =>
      match findByPk s cid with
      | none => s
      | some _ =>
          updateRecord s cid (fun u => { u with parentId := some parentId }))
    st

/-- The value `addChildrenToTicket` hands back.  The resolver wraps the
per-child loop in a single `new Promise`, so the settled value comes from
the first entry of `childrenIds`: `ok` with that child's updated row when
it exists, `errChildNotFound` (the rejection string) when it does not, and
`pending` when `childrenIds` is empty (the promise never settles).
`errParentNotFound` is the thrown `Error('Parent ticket not found')`. -/
inductive AddChildrenResult where
  | errParentNotFound
  | errChildNotFound (id : Nat)
  | pending
  | ok (t : Ticket)
deriving DecidableEq, Repr

/-- The `addChildrenToTicket` resolver (`server.js` lines 108-129):
`findByPk parentId`; if absent, throw `Error('Parent ticket not found')`.
Otherwise a single `new Promise` runs `forEach` over `childrenIds`,
resolving with `ticket.update({parentId})` of a found child and rejecting
with the child-not-found string otherwise; the first entry settles the
promise, but every per-child update still runs (see `applyChildren`). -/
def addChildrenToTicket (st : Store) (parentId : Nat) (childrenIds : List Nat) :
    AddChildrenResult × Store :=
  match findByPk st parentId with
  | none => (.errParentNotFound, st)
  | some _ =>
      let st2 := applyChildren st parentId childrenIds
      match childrenIds with
      | [] => (.pending, st2)
      | c :: _ =>
          match findByPk st c with
          | none => (.errChildNotFound c, st2)
          | some t => (.ok { t with parentId := some parentId }, st2)

/-- The value `addChildrenToTicketReturningArray` hands back:
`ok` with the per-child updated rows when `Promise.all` resolves,
`errChildNotFound` with the first missing child id when some per-child
promise rejects, `errParentNotFound` for the thrown
`Error('Parent ticket not found')`. -/
inductive AddChildrenArrayResult where
  | errParentNotFound
  | errChildNotFound (id : Nat)
  | ok (ts : List Ticket)
deriving DecidableEq, Repr

/-- The `addChildrenToTicketReturningArray` resolver (`server.js` lines
130-157): `findByPk parentId`; if absent, throw
`Error('Parent ticket not found')`.  Otherwise one promise per entry of
`childrenIds`, each resolving with that child's `update({parentId})` or
rejecting when the child is absent, combined with `Promise.all`: the result
is the list of updated children, or the rejection for the first missing id
in list order.  Every per-child update still runs (see `applyChildren`). -/
def addChildrenToTicketReturningArray (st : Store) (parentId : Nat)
    (childrenIds : List Nat) : AddChildrenArrayResult × Store :=
  match findByPk st parentId with
  | none => (.errParentNotFound, st)
  | some _ =>
      let st2 := applyChildren st parentId childrenIds
      match childrenIds.find? (fun c => (findByPk st c).isNone) with
      | some bad => (.errChildNotFound bad, st2)
      | none =>
          (.ok (childrenIds.filterMap
            (fun c => (findByPk st c).map
              (fun t => { t with parentId := some parentId }))), st2)

/-- The ancestor chain of `id`: the ids reached by repeatedly following
`parentId`, cut off by `fuel` (the store itself gives no termination
guarantee, since nothing prevents cycles). -/
def ancestorChain (st : Store) (fuel : Nat) (id : Nat) : List Nat :=
  match fuel with
  | 0 => []
  | fuel + 1 =>
      match findByPk st id with
      | none => []
      | some t =>
          match t.parentId with
          | none => []
          | some p => p :: ancestorChain st fuel p

/-! ## Helper lemmas -/

theorem find?_map_pred (g : Ticket → Ticket) (p : Ticket → Bool)
    (h : ∀ t, p (g t) = p t) :
    ∀ l : List Ticket, (l.map g).find? p = (l.find? p).map g := by
  intro l
  induction l with
  | nil => rfl
  | cons a l ih =>
      simp only [List.map_cons, List.find?_cons, h a]
      cases hp : p a
      · exact ih
      · rfl

theorem findByPk_updateRecord (st : Store) (id pk : Nat) (f : Ticket → Ticket)
    (hf : ∀ t, (f t).id = t.id) :
    findByPk (updateRecord st id f) pk =
      (findByPk st pk).map (fun t => if t.id == id then f t else t) := by
  unfold findByPk updateRecord
  apply find?_map_pred
  intro t
  cases h : t.id == id
  · simp [h]
  · simp [hf t]

theorem mem_updateRecord_of_ne (st : Store) (id : Nat) (f : Ticket → Ticket)
    (t : Ticket) (ht : t ∈ st) (hne : t.id ≠ id) :
    t ∈ updateRecord st id f := by
  unfold updateRecord
  have : (if t.id == id then f t else t) = t := by
    simp [hne]
  exact this ▸ List.mem_map_of_mem _ ht

theorem mem_updateRecord_of_eq (st : Store) (id : Nat) (f : Ticket → Ticket)
    (t : Ticket) (ht : t ∈ st) (heq : t.id = id) :
    f t ∈ updateRecord st id f := by
  unfold updateRecord
  have : (if t.id == id then f t else t) = f t := by
    simp [heq]
  exact this ▸ List.mem_map_of_mem _ ht

theorem mem_of_findByPk_eq_some (st : Store) (id : Nat) (t : Ticket)
    (h : findByPk st id = some t) : t ∈ st ∧ t.id = id := by
  unfold findByPk at h
  refine ⟨List.mem_of_find?_eq_some h, ?_⟩
  have := List.find?_some h
  simpa using this

/-! ## Claims -/

/-- Claim C1 (code_bug): the source has no cycle check at all.  On the
store `{1 root, 2 child of 1}`, `setParentOfTicket(parentId := 2,
childId := 1)` does not fail with `CycleDetected`: it succeeds, returns the
updated ticket 1, and leaves a store in which the ancestor chain walked
from ticket 1 revisits 1 (the chain reads `2, 1, 2, 1, ...`), breaking the
acyclicity invariant the claim states. -/
theorem c1_setParent_creates_cycle :
    setParentOfTicket [⟨1, "A", false, none⟩, ⟨2, "B", false, some 1⟩] 2 1 =
      (.ok ⟨1, "A", false, some 2⟩,
        [⟨1, "A", false, some 2⟩, ⟨2, "B", false, some 1⟩]) ∧
    ancestorChain
      (setParentOfTicket [⟨1, "A", false, none⟩, ⟨2, "B", false, some 1⟩] 2 1).2
      4 1 = [2, 1, 2, 1] ∧
    1 ∈ ancestorChain
      (setParentOfTicket [⟨1, "A", false, none⟩, ⟨2, "B", false, some 1⟩] 2 1).2
      4 1 := by
  refine ⟨rfl, rfl, ?_⟩
  decide

/-- Claim C2 (code_bug): the source has no self-parent check.  On the
one-ticket store `{1}`, `setParentOfTicket(1, 1)` does not fail with
`SelfParent`: it succeeds, returns the updated ticket, and mutates the
record so that ticket 1 is its own parent. -/
theorem c2_setParent_self_succeeds :
    setParentOfTicket [⟨1, "A", false, none⟩] 1 1 =
      (.ok ⟨1, "A", false, some 1⟩, [⟨1, "A", false, some 1⟩]) := by
  rfl

/-- Claim C3 (code_bug): the bulk resolvers are not all-or-nothing.  On the
store `{1 "P" root, 2 "C" root}` with child list `[2, 3]` (2 valid, 3
invalid), `addChildrenToTicket` does not even fail — the wrapping promise
settles on the first child, resolving with updated child 2 — and child 2 is
reassigned to parent 1 although 3 does not exist;
`addChildrenToTicketReturningArray` does reject (child 3 not found) but
still reassigns child 2: a partial application either way, where the claim
demands `PartialFailure` with no reassignment. -/
theorem c3_bulk_partial_application :
    addChildrenToTicket [⟨1, "P", false, none⟩, ⟨2, "C", false, none⟩] 1 [2, 3] =
      (.ok ⟨2, "C", false, some 1⟩,
        [⟨1, "P", false, none⟩, ⟨2, "C", false, some 1⟩]) ∧
    addChildrenToTicketReturningArray
        [⟨1, "P", false, none⟩, ⟨2, "C", false, none⟩] 1 [2, 3] =
      (.errChildNotFound 3,
        [⟨1, "P", false, none⟩, ⟨2, "C", false, some 1⟩]) := by
  exact ⟨rfl, rfl⟩

/-- Claim C4, counterexample: `removeTicket` is not the only operation that
models "not found" as a boolean rather than an error — `setParentOfTicket`
and `removeParentFromTicket` likewise return the plain JS value `false`
(embedded as `SetParentResult.notFoundFalse`), not a thrown error, when the
looked-up ticket is absent (`server.js` lines 161-163, 170-172). -/
theorem c4_not_sole_boolean_notfound_counterexample :
    setParentOfTicket ([] : Store) 5 7 = (.notFoundFalse, []) ∧
    removeParentFromTicket ([] : Store) 7 = (.notFoundFalse, []) := by
  exact ⟨rfl, rfl⟩

/-- Claim C4, amended: `removeTicket(id)` returns `true` exactly when a
ticket with that id existed (and was deleted) and `false` — a normal
result, not an error, with the store untouched — when none exists; but it
is not the sole operation modelling "not found" as a boolean:
`setParentOfTicket` and `removeParentFromTicket` also return the value
`false` rather than an error when the looked-up id is absent. -/
theorem c4_removeTicket_boolean_result :
    (∀ (st : Store) (id : Nat),
      (removeTicket st id).1 = (findByPk st id).isSome) ∧
    (∀ (st : Store) (id : Nat), findByPk st id = none →
      removeTicket st id = (false, st)) ∧
    (setParentOfTicket ([⟨1, "A", false, none⟩] : Store) 3 2).1 =
      .notFoundFalse ∧
    (removeParentFromTicket ([⟨1, "A", false, none⟩] : Store) 2).1 =
      .notFoundFalse := by
  refine ⟨?_, ?_, rfl, rfl⟩
  · intro st id
    cases h : findByPk st id <;> simp [removeTicket, h]
  · intro st id h
    simp [removeTicket, h]

/-- Claim C4, witness: on the empty store, `removeTicket 5` returns
`false` with the store untouched. -/
theorem c4_removeTicket_boolean_result_witness :
    (removeTicket ([] : Store) 5).1 = (findByPk ([] : Store) 5).isSome ∧
    removeTicket ([] : Store) 5 = (false, []) :=
  ⟨c4_removeTicket_boolean_result.1 [] 5,
    c4_removeTicket_boolean_result.2.1 [] 5 rfl⟩

/-- Claim C5: deleting an existing ticket orphans its children.  After
`removeTicket st id` succeeds (returns `true`), every ticket of `st` whose
`parentId` was `id` (other than a self-parented `id` itself) survives with
`parentId = null` and appears in the roots query `tickets`; and every
ticket other than `id` survives (the subtree is not deleted).  The
orphaning itself is the model-level cascade policy modelled from the spec
(see `destroyRecord`). -/
theorem c5_removeTicket_orphans_children (st : Store) (id : Nat)
    (h : (findByPk st id).isSome) :
    (removeTicket st id).1 = true ∧
    (∀ t, t ∈ st → t.parentId = some id → t.id ≠ id →
      { t with parentId := none } ∈ (removeTicket st id).2 ∧
      { t with parentId := none } ∈ tickets (removeTicket st id).2) ∧
    (∀ t, t ∈ st → t.id ≠ id →
      ∃ u, u ∈ (removeTicket st id).2 ∧ u.id = t.id) := by
  obtain ⟨u, hu⟩ := Option.isSome_iff_exists.mp h
  have hrm : removeTicket st id = (true, destroyRecord st id) := by
    simp [removeTicket, hu]
  rw [hrm]
  refine ⟨rfl, ?_, ?_⟩
  · intro t ht hpar hne
    have hfil : t ∈ st.filter (fun t => t.id ≠ id) :=
      List.mem_filter.mpr ⟨ht, by simp [hne]⟩
    have hmem : { t with parentId := none } ∈ destroyRecord st id := by
      unfold destroyRecord
      have himg :
          (if t.parentId = some id then { t with parentId := none } else t) =
            { t with parentId := none } := by
        simp [hpar]
      exact himg ▸ List.mem_map_of_mem _ hfil
    exact ⟨hmem, List.mem_filter.mpr ⟨hmem, by simp⟩⟩
  · intro t ht hne
    have hfil : t ∈ st.filter (fun t => t.id ≠ id) :=
      List.mem_filter.mpr ⟨ht, by simp [hne]⟩
    refine ⟨if t.parentId = some id then { t with parentId := none } else t,
      ?_, ?_⟩
    · exact List.mem_map_of_mem _ hfil
    · by_cases hp : t.parentId = some id <;> simp [hp]

/-- Claim C5, witness: on the store `{1 "P" root, 2 "C" child of 1}`,
`removeTicket 1` returns `true`, and child 2 survives as a root with
`parentId = null`, appearing in the roots query. -/
theorem c5_removeTicket_orphans_children_witness :
    (removeTicket [⟨1, "P", false, none⟩, ⟨2, "C", false, some 1⟩] 1).1 = true ∧
    (⟨2, "C", false, none⟩ : Ticket) ∈
      (removeTicket [⟨1, "P", false, none⟩, ⟨2, "C", false, some 1⟩] 1).2 ∧
    (⟨2, "C", false, none⟩ : Ticket) ∈
      tickets (removeTicket [⟨1, "P", false, none⟩, ⟨2, "C", false, some 1⟩] 1).2 := by
  have h := c5_removeTicket_orphans_children
    [⟨1, "P", false, none⟩, ⟨2, "C", false, some 1⟩] 1 (by decide)
  exact ⟨h.1, (h.2.1 ⟨2, "C", false, some 1⟩ (by simp) rfl (by decide)).1,
    (h.2.1 ⟨2, "C", false, some 1⟩ (by simp) rfl (by decide)).2⟩

/-- Rewriting a row twice through an idempotent, id-preserving field update
is the same as rewriting it once. -/
theorem updateRecord_idem (st : Store) (id : Nat) (f : Ticket → Ticket)
    (hf : ∀ t, f (f t) = f t) (hid : ∀ t, (f t).id = t.id) :
    updateRecord (updateRecord st id f) id f = updateRecord st id f := by
  unfold updateRecord
  rw [List.map_map]
  apply List.map_congr_left
  intro t _
  by_cases h : t.id = id
  · simp [Function.comp, h, hid, hf]
  · simp [Function.comp, h]

/-- Claim C6: duplicate ids in `childrenIds` are idempotent — with parent
`p` and child `c` both existing, `addChildrenToTicket p [c, c]` returns the
same value and produces the same store as `addChildrenToTicket p [c]`. -/
theorem c6_duplicate_children_idempotent (st : Store) (p c : Nat)
    (hp : (findByPk st p).isSome) (hc : (findByPk st c).isSome) :
    addChildrenToTicket st p [c, c] = addChildrenToTicket st p [c] := by
  obtain ⟨q, hq⟩ := Option.isSome_iff_exists.mp hp
  obtain ⟨u, hu⟩ := Option.isSome_iff_exists.mp hc
  have huid : u.id = c := (mem_of_findByPk_eq_some st c u hu).2
  have hfind1 :
      findByPk (updateRecord st c (fun u => { u with parentId := some p })) c =
        some { u with parentId := some p } := by
    rw [findByPk_updateRecord st c c (fun u => { u with parentId := some p })
      (fun t => rfl), hu]
    simp [huid]
  have hstate :
      applyChildren st p [c, c] = applyChildren st p [c] := by
    unfold applyChildren
    simp only [List.foldl_cons, List.foldl_nil, hu, hfind1]
    exact updateRecord_idem st c _ (fun t => rfl) (fun t => rfl)
  have hlhs : addChildrenToTicket st p [c, c] =
      (.ok { u with parentId := some p }, applyChildren st p [c, c]) := by
    simp [addChildrenToTicket, hq, hu]
  have hrhs : addChildrenToTicket st p [c] =
      (.ok { u with parentId := some p }, applyChildren st p [c]) := by
    simp [addChildrenToTicket, hq, hu]
  rw [hlhs, hrhs, hstate]

/-- Claim C6, witness: on the store `{1 "P" root, 2 "C" root}`,
`addChildrenToTicket 1 [2, 2]` equals `addChildrenToTicket 1 [2]`. -/
theorem c6_duplicate_children_idempotent_witness :
    (findByPk [⟨1, "P", false, none⟩, ⟨2, "C", false, none⟩] 1).isSome = true ∧
    (findByPk [⟨1, "P", false, none⟩, ⟨2, "C", false, none⟩] 2).isSome = true ∧
    addChildrenToTicket [⟨1, "P", false, none⟩, ⟨2, "C", false, none⟩] 1 [2, 2] =
      addChildrenToTicket [⟨1, "P", false, none⟩, ⟨2, "C", false, none⟩] 1 [2] :=
  ⟨by decide, by decide,
    c6_duplicate_children_idempotent _ 1 2 (by decide) (by decide)⟩

/-- Claim C7, counterexample: on the empty store,
`removeParentFromTicket 9` does not fail with `NotFound` — the resolver
returns the plain JS value `false` (`server.js` lines 170-172), embedded as
`SetParentResult.notFoundFalse`, unlike `updateTicket`/`toggleTicket`,
which throw `Error('Ticket not found')`. -/
theorem c7_notfound_returns_false_counterexample :
    removeParentFromTicket ([] : Store) 9 = (.notFoundFalse, []) := by
  exact rfl

/-- Claim C7, amended: `removeParentFromTicket id` sets the ticket's
`parentId` to null unconditionally when the ticket exists — returning the
updated ticket, which then appears in the roots query `tickets` — and
returns the value `false` (not a `NotFound` error) when no ticket with
that id exists. -/
theorem c7_removeParent_clears_parent :
    (∀ (st : Store) (id : Nat) (t : Ticket), findByPk st id = some t →
      removeParentFromTicket st id =
        (.ok { t with parentId := none },
          updateRecord st id (fun u => { u with parentId := none })) ∧
      { t with parentId := none } ∈ tickets (removeParentFromTicket st id).2) ∧
    (∀ (st : Store) (id : Nat), findByPk st id = none →
      removeParentFromTicket st id = (.notFoundFalse, st)) := by
  constructor
  · intro st id t h
    obtain ⟨ht, hid⟩ := mem_of_findByPk_eq_some st id t h
    have heq : removeParentFromTicket st id =
        (.ok { t with parentId := none },
          updateRecord st id (fun u => { u with parentId := none })) := by
      simp [removeParentFromTicket, h]
    refine ⟨heq, ?_⟩
    rw [heq]
    exact List.mem_filter.mpr
      ⟨mem_updateRecord_of_eq st id _ t ht hid, by simp⟩
  · intro st id h
    simp [removeParentFromTicket, h]

/-- Claim C7, witness: on the store `{3 "R" child of 7}`,
`removeParentFromTicket 3` returns the updated root ticket 3, which
appears in the roots query; on the empty store it returns `false`. -/
theorem c7_removeParent_clears_parent_witness :
    removeParentFromTicket [⟨3, "R", true, some 7⟩] 3 =
      (.ok ⟨3, "R", true, none⟩,
        updateRecord [⟨3, "R", true, some 7⟩] 3
          (fun u => { u with parentId := none })) ∧
    (⟨3, "R", true, none⟩ : Ticket) ∈
      tickets (removeParentFromTicket [⟨3, "R", true, some 7⟩] 3).2 ∧
    removeParentFromTicket ([] : Store) 4 = (.notFoundFalse, []) :=
  ⟨(c7_removeParent_clears_parent.1 [⟨3, "R", true, some 7⟩] 3
      ⟨3, "R", true, some 7⟩ rfl).1,
    (c7_removeParent_clears_parent.1 [⟨3, "R", true, some 7⟩] 3
      ⟨3, "R", true, some 7⟩ rfl).2,
    c7_removeParent_clears_parent.2 [] 4 rfl⟩

/-- When `F` hits on every element, `filterMap F` drops nothing. -/
theorem filterMap_length_of_all_isSome {α β : Type} (F : α → Option β) :
    ∀ l : List α, (∀ a ∈ l, (F a).isSome) → (l.filterMap F).length = l.length := by
  intro l
  induction l with
  | nil => intro; rfl
  | cons a l ih =>
      intro h
      obtain ⟨b, hb⟩ := Option.isSome_iff_exists.mp (h a (List.mem_cons_self a l))
      simp only [List.filterMap_cons, hb, List.length_cons]
      rw [ih (fun x hx => h x (List.mem_cons_of_mem a hx))]

/-- When `F` hits on every element, `filterMap F` acts elementwise. -/
theorem filterMap_getElem?_of_all_isSome {α β : Type} (F : α → Option β) :
    ∀ l : List α, (∀ a ∈ l, (F a).isSome) → ∀ k : Nat,
      (l.filterMap F)[k]? = l[k]?.bind F := by
  intro l
  induction l with
  | nil => intro _ k; simp
  | cons a l ih =>
      intro h k
      obtain ⟨b, hb⟩ := Option.isSome_iff_exists.mp (h a (List.mem_cons_self a l))
      cases k with
      | zero => simp [List.filterMap_cons, hb]
      | succ k =>
          simp only [List.filterMap_cons, hb, List.getElem?_cons_succ]
          exact ih (fun x hx => h x (List.mem_cons_of_mem a hx)) k

/-- Claim C8, counterexample: on the store `{1 "P" root, 2 "C" root}`,
`addChildrenToTicket 1 [2]` succeeds but returns the updated **child**
(ticket 2) — the resolver resolves its promise with
`ticket.update({parentId})` where `ticket` is the child fetched inside the
loop (`server.js` line 121) — not the updated parent (ticket 1) that the
claim promises. -/
theorem c8_returns_child_not_parent_counterexample :
    (addChildrenToTicket [⟨1, "P", false, none⟩, ⟨2, "C", false, none⟩]
      1 [2]).1 = .ok ⟨2, "C", false, some 1⟩ := by
  exact rfl

/-- Claim C8, amended: both bulk resolvers fail with the parent-not-found
error when `parentId` does not exist (leaving the store untouched); on a
non-empty child list whose head exists, `addChildrenToTicket` returns the
**first updated child** (not the parent); and when every listed child
exists, `addChildrenToTicketReturningArray` returns the sequence of every
updated child — one entry per listed id, in order, each being the stored
child updated with `parentId := p`. -/
theorem c8_bulk_return_values :
    (∀ (st : Store) (p : Nat) (ids : List Nat), findByPk st p = none →
      addChildrenToTicket st p ids = (.errParentNotFound, st) ∧
      addChildrenToTicketReturningArray st p ids = (.errParentNotFound, st)) ∧
    (∀ (st : Store) (p c : Nat) (rest : List Nat) (t : Ticket),
      (findByPk st p).isSome → findByPk st c = some t →
      (addChildrenToTicket st p (c :: rest)).1 =
        .ok { t with parentId := some p }) ∧
    (∀ (st : Store) (p : Nat) (ids : List Nat),
      (findByPk st p).isSome → (∀ c ∈ ids, (findByPk st c).isSome) →
      (addChildrenToTicketReturningArray st p ids).1 =
        .ok (ids.filterMap (fun c => (findByPk st c).map
          (fun t => { t with parentId := some p }))) ∧
      (ids.filterMap (fun c => (findByPk st c).map
        (fun t => { t with parentId := some p }))).length = ids.length ∧
      (∀ k : Nat,
        (ids.filterMap (fun c => (findByPk st c).map
          (fun t => { t with parentId := some p })))[k]? =
        ids[k]?.bind (fun c => (findByPk st c).map
          (fun t => { t with parentId := some p })))) := by
  refine ⟨?_, ?_, ?_⟩
  · intro st p ids h
    constructor
    · simp [addChildrenToTicket, h]
    · simp [addChildrenToTicketReturningArray, h]
  · intro st p c rest t hp ht
    obtain ⟨q, hq⟩ := Option.isSome_iff_exists.mp hp
    simp [addChildrenToTicket, hq, ht]
  · intro st p ids hp hall
    obtain ⟨q, hq⟩ := Option.isSome_iff_exists.mp hp
    have hnone : ids.find? (fun c => (findByPk st c).isNone) = none := by
      rw [List.find?_eq_none]
      intro c hc
      simp [Option.isNone_iff_eq_none]
      exact Option.isSome_iff_ne_none.mp (hall c hc)
    have hFsome : ∀ c ∈ ids,
        ((fun c => (findByPk st c).map
          (fun t => { t with parentId := some p })) c).isSome := by
      intro c hc
      rw [Option.isSome_map']
      exact hall c hc
    refine ⟨?_, filterMap_length_of_all_isSome _ ids hFsome,
      filterMap_getElem?_of_all_isSome _ ids hFsome⟩
    simp [addChildrenToTicketReturningArray, hq, hnone]

/-- Claim C8, witness: with parent 1 absent from the empty store both bulk
resolvers fail with the parent-not-found error; on the store
`{1 "P" root, 2 "C" root}` with child list `[2]`, `addChildrenToTicket`
returns updated child 2 and `addChildrenToTicketReturningArray` returns
the one-element sequence containing updated child 2. -/
theorem c8_bulk_return_values_witness :
    addChildrenToTicket ([] : Store) 1 [2] = (.errParentNotFound, []) ∧
    addChildrenToTicketReturningArray ([] : Store) 1 [2] =
      (.errParentNotFound, []) ∧
    (addChildrenToTicket [⟨1, "P", false, none⟩, ⟨2, "C", false, none⟩]
      1 [2]).1 = .ok ⟨2, "C", false, some 1⟩ ∧
    (addChildrenToTicketReturningArray
      [⟨1, "P", false, none⟩, ⟨2, "C", false, none⟩] 1 [2]).1 =
      .ok [⟨2, "C", false, some 1⟩] := by
  refine ⟨(c8_bulk_return_values.1 [] 1 [2] rfl).1,
    (c8_bulk_return_values.1 [] 1 [2] rfl).2,
    c8_bulk_return_values.2.1 [⟨1, "P", false, none⟩, ⟨2, "C", false, none⟩]
      1 2 [] ⟨2, "C", false, none⟩ (by decide) rfl, ?_⟩
  have h := (c8_bulk_return_values.2.2
    [⟨1, "P", false, none⟩, ⟨2, "C", false, none⟩] 1 [2] (by decide)
    (by decide)).1
  exact h.trans (by decide)

/-- Claim C9: creating a ticket with an empty title fails with
`ValidationError` and creates nothing; updating a ticket's title to the
empty string fails with `ValidationError` leaving the store unchanged; and
`updateTicket` fails with `NotFound` (the thrown `Error('Ticket not
found')`) when the id is absent.  The empty-title rejection is the
model-level validation modelled from the spec (see `titleOk`); the
`NotFound` branch is `server.js` lines 77-79. -/
theorem c9_title_validation :
    (∀ (st : Store) (newId : Nat) (ic : Option Bool),
      createTicket st newId "" ic = (.error .validationError, st)) ∧
    (∀ (st : Store) (id : Nat) (t : Ticket), findByPk st id = some t →
      updateTicket st id "" = (.error .validationError, st)) ∧
    (∀ (st : Store) (id : Nat) (title : String), findByPk st id = none →
      updateTicket st id title = (.error .notFound, st)) := by
  refine ⟨?_, ?_, ?_⟩
  · intro st newId ic
    simp [createTicket, titleOk]
  · intro st id t h
    simp [updateTicket, h, titleOk]
  · intro st id title h
    simp [updateTicket, h]

/-- Claim C9, witness: concrete instances — empty-title creation on the
empty store, empty-title update of existing ticket 1, and update of the
absent id 2. -/
theorem c9_title_validation_witness :
    createTicket ([] : Store) 1 "" none = (.error .validationError, []) ∧
    updateTicket [⟨1, "A", false, none⟩] 1 "" =
      (.error .validationError, [⟨1, "A", false, none⟩]) ∧
    updateTicket ([] : Store) 2 "X" = (.error .notFound, []) :=
  ⟨c9_title_validation.1 [] 1 none,
    c9_title_validation.2.1 [⟨1, "A", false, none⟩] 1 ⟨1, "A", false, none⟩ rfl,
    c9_title_validation.2.2 [] 2 "X" rfl⟩

/-- Claim C10: frame conditions of `updateTicket` and `toggleTicket` on an
existing ticket `t`.  `updateTicket` returns `{ t with title := title }`
(same `id`, `isCompleted`, `parentId`), `toggleTicket` returns
`{ t with isCompleted := ic }` (same `id`, `title`, `parentId`); in the
resulting store every ticket with a different id is untouched, the ticket
with the matching id has only the one field rewritten, and no row is added
or removed. -/
theorem c10_update_toggle_frame (st : Store) (id : Nat) (title : String)
    (ic : Bool) (t : Ticket) (h : findByPk st id = some t) :
    (titleOk title = true →
      (updateTicket st id title).1 = .ok { t with title := title } ∧
      (∀ u, u ∈ st → u.id ≠ id → u ∈ (updateTicket st id title).2) ∧
      (∀ u, u ∈ st → u.id = id →
        { u with title := title } ∈ (updateTicket st id title).2) ∧
      (updateTicket st id title).2.length = st.length) ∧
    ((toggleTicket st id ic).1 = .ok { t with isCompleted := ic } ∧
      (∀ u, u ∈ st → u.id ≠ id → u ∈ (toggleTicket st id ic).2) ∧
      (∀ u, u ∈ st → u.id = id →
        { u with isCompleted := ic } ∈ (toggleTicket st id ic).2) ∧
      (toggleTicket st id ic).2.length = st.length) := by
  constructor
  · intro htitle
    have heq : updateTicket st id title =
        (.ok { t with title := title },
          updateRecord st id (fun u => { u with title := title })) := by
      simp [updateTicket, h, htitle]
    rw [heq]
    refine ⟨rfl, ?_, ?_, by simp [updateRecord]⟩
    · intro u hu hne
      exact mem_updateRecord_of_ne st id _ u hu hne
    · intro u hu hid
      exact mem_updateRecord_of_eq st id _ u hu hid
  · have heq : toggleTicket st id ic =
        (.ok { t with isCompleted := ic },
          updateRecord st id (fun u => { u with isCompleted := ic })) := by
      simp [toggleTicket, h]
    rw [heq]
    refine ⟨rfl, ?_, ?_, by simp [updateRecord]⟩
    · intro u hu hne
      exact mem_updateRecord_of_ne st id _ u hu hne
    · intro u hu hid
      exact mem_updateRecord_of_eq st id _ u hu hid

/-- Claim C10, witness: on the store `{1 "A" incomplete child of 5,
2 "B" complete root}`, retitling ticket 1 to "Z" returns
`⟨1, "Z", false, some 5⟩` and leaves ticket 2 in place, and toggling
ticket 1 returns `⟨1, "A", true, some 5⟩` and leaves ticket 2 in place. -/
theorem c10_update_toggle_frame_witness :
    (updateTicket [⟨1, "A", false, some 5⟩, ⟨2, "B", true, none⟩] 1 "Z").1 =
      .ok ⟨1, "Z", false, some 5⟩ ∧
    (⟨2, "B", true, none⟩ : Ticket) ∈
      (updateTicket [⟨1, "A", false, some 5⟩, ⟨2, "B", true, none⟩] 1 "Z").2 ∧
    (toggleTicket [⟨1, "A", false, some 5⟩, ⟨2, "B", true, none⟩] 1 true).1 =
      .ok ⟨1, "A", true, some 5⟩ ∧
    (⟨2, "B", true, none⟩ : Ticket) ∈
      (toggleTicket [⟨1, "A", false, some 5⟩, ⟨2, "B", true, none⟩] 1 true).2 := by
  have h := c10_update_toggle_frame
    [⟨1, "A", false, some 5⟩, ⟨2, "B", true, none⟩] 1 "Z" true
    ⟨1, "A", false, some 5⟩ rfl
  have hu := h.1 (by decide)
  exact ⟨hu.1, hu.2.1 ⟨2, "B", true, none⟩ (by simp) (by decide),
    h.2.1, h.2.2.1 ⟨2, "B", true, none⟩ (by simp) (by decide)⟩

end TicketApp
